import Mathlib

/-!
Shallow embedding of `ollama-chat-backend/src/main.rs` (an HTTP gateway
between a chat front-end and a local Ollama inference server).

Rust strings are embedded as Lean `String`; the two character-level
operations the source uses, `String::contains(char)` and
`String::replace(char, str)` with a one-character replacement, are given
explicit definitions over the underlying character list.  The network,
JSON parsing and UTF-8 decoding performed by external crates are
abstracted as function parameters of the handlers; everything the
repository itself computes is embedded directly.
-/

/-- `Msg` from main.rs: a chat message `{role, content}`. -/
structure Msg where
  role : String
  content : String
deriving DecidableEq

/-- `ChatReq` from main.rs: the inbound request body. -/
structure ChatReq where
  messages : List Msg
  model : Option String
  stream : Option Bool
deriving DecidableEq

/-- `ChatResp` from main.rs: the buffered handler's response body. -/
structure ChatResp where
  content : String
deriving DecidableEq

/-- Rust `m.contains(c)` on a `String` and a `char`. -/
def containsChar (s : String) (c : Char) : Bool :=
  s.data.any (fun x => x == c)

/-- Rust `m.replace(c, d)` where the replacement is the single character `d`. -/
def replaceChar (s : String) (c d : Char) : String :=
  ⟨s.data.map (fun x => if x == c then d else x)⟩

/-- `normalize_model`, the function nested inside `chat` in main.rs. -/
def chat.normalize_model : Option String → String
  | some m =>
      if m = "llama3.1" then "llama3:8b"
      else if containsChar m '.' && !containsChar m ':' then replaceChar m '.' ':'
      else m
  | none => "llama3:8b"

/-- `normalize_model`, the (textually identical) copy nested inside
`chat_stream` in main.rs. -/
def chat_stream.normalize_model : Option String → String
  | some m =>
      if m = "llama3.1" then "llama3:8b"
      else if containsChar m '.' && !containsChar m ':' then replaceChar m '.' ':'
      else m
  | none => "llama3:8b"

/-- `serde_json::Value`: an arbitrary JSON document.  Objects are kept as
their ordered entry list (the map's natural key order); the numeric payload
of a number is irrelevant to every function in the source, so it is an
`Int` here. -/
inductive Json where
  | null : Json
  | bool : Bool → Json
  | num : Int → Json
  | str : String → Json
  | arr : List Json → Json
  | obj : List (String × Json) → Json

/-- Map lookup on an object's entry list (`serde_json::Map::get`). -/
def Json.lookup (k : String) : List (String × Json) → Option Json
  | [] => none
  | e :: rest => if e.1 = k then some e.2 else Json.lookup k rest

/-- `serde_json::Value::get(key)`: `Some` only on objects holding the key. -/
def Json.get (v : Json) (k : String) : Option Json :=
  match v with
  | .obj entries => Json.lookup k entries
  | _ => none

mutual
/-- `extract_content` from main.rs: depth-first search of a JSON value for a
`content` string, with the precedence rule
object-key-`content` > object-key-`message.content` > recurse-into-children. -/
def extract_content : Json → Option String
  | .str _ => none
  | .obj entries =>
      match Json.lookup "content" entries with
      | some (.str s) => some s
      | _ =>
          match (Json.lookup "message" entries).bind (fun msg => msg.get "content") with
          | some (.str s) => some s
          | _ => extractEntries entries
  | .arr elems => extractElems elems
  | .null => none
  | .bool _ => none
  | .num _ => none

/-- The `for (_k, val) in map.iter()` loop of `extract_content`: recurse into
each entry's value, returning the first `Some` result. -/
def extractEntries : List (String × Json) → Option String
  | [] => none
  | (_, v) :: rest =>
      match extract_content v with
      | some found => some found
      | none => extractEntries rest

/-- The `for val in arr.iter()` loop of `extract_content`: recurse into each
element, returning the first `Some` result. -/
def extractElems : List Json → Option String
  | [] => none
  | v :: rest =>
      match extract_content v with
      | some found => some found
      | none => extractElems rest
end

/-- First `Some` in a list of results (specification-side helper used to
state the first-match-wins property of the recursion loops). -/
def firstSome : List (Option String) → Option String
  | [] => none
  | o :: rest =>
      match o with
      | some s => some s
      | none => firstSome rest

/-- The JSON body each handler POSTs to Ollama:
`{"model": model, "messages": req.messages, "stream": b}`. -/
structure UpstreamReq where
  model : String
  messages : List Msg
  stream : Bool
deriving DecidableEq

/-- Outcome of `client.post(...).send()` followed by `resp.text()` in the
buffered handler: the send fails, the body read fails, or a body text is
obtained. -/
inductive HttpOutcome where
  | sendErr (e : String)
  | readErr (e : String)
  | ok (bodyText : String)

/-- The upstream request built by `chat` (lines 79-83): `stream` fixed to
`false`, `model` normalized. -/
def chat.upstreamReq (req : ChatReq) : UpstreamReq :=
  ⟨chat.normalize_model req.model, req.messages, false⟩

/-- The buffered handler `chat` from main.rs.  The network and
`serde_json::from_str` are abstracted as the parameters `net` (what sending
the built upstream request produces) and `parse` (JSON parsing of a body
text); the handler returns the upstream request it built together with the
`ChatResp` it answers with.  Every failure is converted into text in the
`content` field; no error escapes. -/
def chat.handler (req : ChatReq) (net : UpstreamReq → HttpOutcome)
    (parse : String → Option Json) : UpstreamReq × ChatResp :=
  let ureq := chat.upstreamReq req
  match net ureq with
  | .sendErr e => (ureq, ⟨"Error contacting Ollama API: " ++ e⟩)
  | .readErr e => (ureq, ⟨"Failed to read response body: " ++ e⟩)
  | .ok bodyText =>
      match parse bodyText with
      | none => (ureq, ⟨bodyText⟩)
      | some json =>
          match extract_content json with
          | some c => (ureq, ⟨c⟩)
          | none => (ureq, ⟨bodyText⟩)

/-- One step of `remote_stream.try_next()` in the streaming relay: a byte
chunk arrives, or reading fails with an error. -/
inductive ChunkResult where
  | ok (bytes : List Nat)
  | err (e : String)

/-- The upstream response seen by `chat_stream` after a successful send:
its status, the result of `resp.text()` if it were read (`none` when that
read would fail), and its byte stream. -/
structure UpstreamResp where
  statusSuccess : Bool
  textResult : Option String
  chunks : List ChunkResult

/-- Outcome of `client.post(...).send()` in the streaming handler. -/
inductive SendOutcome where
  | err (e : String)
  | ok (resp : UpstreamResp)

/-- The spawned relay loop of `chat_stream` (lines 203-222): for each chunk,
decode it (`String::from_utf8`, abstracted as `decode`; an invalid chunk
degrades to `""`) and emit one event; on a read error emit one
`"__ERR__:"`-marked event and stop.  The result is the list of event
payloads sent, in order. -/
def relay (decode : List Nat → Option String) : List ChunkResult → List String
  | [] => []
  | .ok bytes :: rest =>
      (match decode bytes with
       | some t => t
       | none => "") :: relay decode rest
  | .err e :: _ => ["__ERR__:" ++ e]

/-- The upstream request built by `chat_stream` (lines 170-174): `stream`
fixed to `true`, `model` normalized. -/
def chat_stream.upstreamReq (req : ChatReq) : UpstreamReq :=
  ⟨chat_stream.normalize_model req.model, req.messages, true⟩

/-- The streaming handler `chat_stream` from main.rs, returning the
upstream request it built together with the list of SSE event payloads its
response stream carries: a single error event when the send fails; a single
event with the error body text (or the fixed fallback text when even that
read fails) when the status is not a success; otherwise the relay of the
byte stream. -/
def chat_stream.handler (req : ChatReq) (net : UpstreamReq → SendOutcome)
    (decode : List Nat → Option String) : UpstreamReq × List String :=
  let ureq := chat_stream.upstreamReq req
  (ureq,
    match net ureq with
    | .err e => ["Error contacting Ollama API: " ++ e]
    | .ok resp =>
        if resp.statusSuccess then relay decode resp.chunks
        else
          match resp.textResult with
          | some t => [t]
          | none => ["unknown error from ollama"])

/-! ## Extraction lemmas -/

lemma extract_content_obj (entries : List (String × Json)) :
    extract_content (.obj entries) =
      match Json.lookup "content" entries with
      | some (.str s) => some s
      | _ =>
          match (Json.lookup "message" entries).bind (fun msg => msg.get "content") with
          | some (.str s) => some s
          | _ => extractEntries entries := rfl

lemma extract_content_obj_of_no_content (entries : List (String × Json))
    (h : ∀ t, Json.lookup "content" entries ≠ some (.str t)) :
    extract_content (.obj entries) =
      match (Json.lookup "message" entries).bind (fun msg => msg.get "content") with
      | some (.str s) => some s
      | _ => extractEntries entries := by
  rw [extract_content_obj]
  cases hc : Json.lookup "content" entries with
  | none => rfl
  | some v =>
      cases v with
      | str s => exact absurd hc (h s)
      | null => rfl
      | bool b => rfl
      | num n => rfl
      | arr elems => rfl
      | obj o => rfl

lemma extract_content_obj_of_no_direct (entries : List (String × Json))
    (h1 : ∀ t, Json.lookup "content" entries ≠ some (.str t))
    (h2 : ∀ t, (Json.lookup "message" entries).bind (fun msg => msg.get "content") ≠
        some (.str t)) :
    extract_content (.obj entries) = extractEntries entries := by
  rw [extract_content_obj_of_no_content entries h1]
  cases hm : (Json.lookup "message" entries).bind (fun msg => msg.get "content") with
  | none => rfl
  | some v =>
      cases v with
      | str s => exact absurd hm (h2 s)
      | null => rfl
      | bool b => rfl
      | num n => rfl
      | arr elems => rfl
      | obj o => rfl

lemma extractElems_eq_firstSome (elems : List Json) :
    extractElems elems = firstSome (elems.map extract_content) := by
  induction elems with
  | nil => rfl
  | cons v rest ih =>
      simp only [List.map, extractElems, firstSome]
      cases extract_content v with
      | some s => rfl
      | none => exact ih

lemma extractEntries_eq_firstSome (entries : List (String × Json)) :
    extractEntries entries = firstSome (entries.map (fun e => extract_content e.2)) := by
  induction entries with
  | nil => rfl
  | cons e rest ih =>
      obtain ⟨k, v⟩ := e
      simp only [List.map, extractEntries, firstSome]
      cases extract_content v with
      | some s => rfl
      | none => exact ih

/-- C1: the precedence rule of `extract_content` — on an object, a string
under key `"content"` is returned immediately; failing that, a string under
`"message"`.`"content"` is returned; failing both, the search recurses into
the object's entry values in order; an array recurses into its elements;
string leaves and scalars yield no match; and the five concrete examples of
the claim evaluate as stated. -/
theorem extract_content_precedence :
    (∀ s, extract_content (.str s) = none)
    ∧ (∀ n, extract_content (.num n) = none)
    ∧ (∀ b, extract_content (.bool b) = none)
    ∧ extract_content .null = none
    ∧ (∀ entries s, Json.lookup "content" entries = some (.str s) →
        extract_content (.obj entries) = some s)
    ∧ (∀ entries s, (∀ t, Json.lookup "content" entries ≠ some (.str t)) →
        (Json.lookup "message" entries).bind (fun msg => msg.get "content") = some (.str s) →
        extract_content (.obj entries) = some s)
    ∧ (∀ entries, (∀ t, Json.lookup "content" entries ≠ some (.str t)) →
        (∀ t, (Json.lookup "message" entries).bind (fun msg => msg.get "content") ≠
            some (.str t)) →
        extract_content (.obj entries) = extractEntries entries)
    ∧ (∀ elems, extract_content (.arr elems) = extractElems elems)
    ∧ extract_content (.obj [("message", .obj [("content", .str "hi")])]) = some "hi"
    ∧ extract_content (.obj [("content", .str "hi")]) = some "hi"
    ∧ extract_content (.obj [("foo", .obj [("content", .str "nested")])]) = some "nested"
    ∧ extract_content (.arr [.str "x", .obj [("content", .str "found")]]) = some "found"
    ∧ extract_content (.obj [("a", .num 1), ("b", .str "text")]) = none := by
  refine ⟨fun s => rfl, fun n => rfl, fun b => rfl, rfl, ?_, ?_,
    extract_content_obj_of_no_direct, fun elems => rfl, rfl, rfl, rfl, rfl, rfl⟩
  · intro entries s h
    rw [extract_content_obj, h]
  · intro entries s h1 h2
    rw [extract_content_obj_of_no_content entries h1, h2]

theorem extract_content_precedence_witness :
    extract_content (.obj [("content", .str "w")]) = some "w"
    ∧ extract_content (.obj [("message", .obj [("content", .str "m")]), ("z", .null)]) =
        some "m"
    ∧ extract_content (.obj [("k", .bool true)]) = extractEntries [("k", .bool true)] :=
  ⟨extract_content_precedence.2.2.2.2.1 [("content", .str "w")] "w" rfl,
   extract_content_precedence.2.2.2.2.2.1 [("message", .obj [("content", .str "m")]), ("z", .null)]
     "m" (fun t h => by simp [Json.lookup] at h) rfl,
   extract_content_precedence.2.2.2.2.2.2.1 [("k", .bool true)]
     (fun t h => by simp [Json.lookup] at h)
     (fun t h => by simp [Json.lookup] at h)⟩

/-- C2: first-match-wins recursion — when an object's direct
`"content"`/`"message"` checks fail, and always for arrays, the result is
the first `Some` among the children's extraction results in traversal
order; a child whose extraction result is empty (`none`) does not stop the
search, and a child with a `Some` result ends it immediately. -/
theorem extract_content_first_match :
    (∀ elems, extractElems elems = firstSome (elems.map extract_content))
    ∧ (∀ entries, extractEntries entries =
        firstSome (entries.map (fun e => extract_content e.2)))
    ∧ (∀ entries, (∀ t, Json.lookup "content" entries ≠ some (.str t)) →
        (∀ t, (Json.lookup "message" entries).bind (fun msg => msg.get "content") ≠
            some (.str t)) →
        extract_content (.obj entries) =
          firstSome (entries.map (fun e => extract_content e.2)))
    ∧ (∀ elems, extract_content (.arr elems) = firstSome (elems.map extract_content))
    ∧ (∀ v rest s, extract_content v = some s → extractElems (v :: rest) = some s)
    ∧ (∀ v rest, extract_content v = none → extractElems (v :: rest) = extractElems rest)
    ∧ (∀ k v rest s, extract_content v = some s → extractEntries ((k, v) :: rest) = some s)
    ∧ (∀ k v rest, extract_content v = none →
        extractEntries ((k, v) :: rest) = extractEntries rest) := by
  refine ⟨extractElems_eq_firstSome, extractEntries_eq_firstSome, ?_,
    fun elems => extractElems_eq_firstSome elems, ?_, ?_, ?_, ?_⟩
  · intro entries h1 h2
    rw [extract_content_obj_of_no_direct entries h1 h2]
    exact extractEntries_eq_firstSome entries
  · intro v rest s h
    simp only [extractElems, h]
  · intro v rest h
    simp only [extractElems, h]
  · intro k v rest s h
    simp only [extractEntries, h]
  · intro k v rest h
    simp only [extractEntries, h]

theorem extract_content_first_match_witness :
    extractElems [Json.null, Json.obj [("content", Json.str "w")], Json.str "after"] =
        extractElems [Json.obj [("content", Json.str "w")], Json.str "after"]
    ∧ extractElems [Json.obj [("content", Json.str "w")], Json.str "after"] = some "w" :=
  ⟨extract_content_first_match.2.2.2.2.2.1 Json.null
     [Json.obj [("content", Json.str "w")], Json.str "after"] rfl,
   extract_content_first_match.2.2.2.2.1 (Json.obj [("content", Json.str "w")])
     [Json.str "after"] "w" rfl⟩

/-! ## Normalization lemmas -/

lemma containsChar_replaceChar (s : String) :
    containsChar (replaceChar s '.' ':') '.' = false := by
  simp only [containsChar, replaceChar, List.any_map, List.any_eq_false, Function.comp]
  intro x _
  by_cases h : x = '.' <;> simp [h]

/-- C7: model normalization in both handlers — absent model yields
`"llama3:8b"`; the exact token `"llama3.1"` yields `"llama3:8b"` (the alias
branch takes precedence over the dot rewrite, which would have produced a
different string); a token with a `'.'` and no `':'` has every `'.'`
replaced by `':'`; every other token is unchanged; the concrete examples
hold; and the two handlers' normalization functions are extensionally
equal. -/
theorem normalize_model_spec :
    chat.normalize_model none = "llama3:8b"
    ∧ chat.normalize_model (some "llama3.1") = "llama3:8b"
    ∧ replaceChar "llama3.1" '.' ':' ≠ "llama3:8b"
    ∧ (∀ m, m ≠ "llama3.1" → containsChar m '.' = true → containsChar m ':' = false →
        chat.normalize_model (some m) = replaceChar m '.' ':')
    ∧ (∀ m, m ≠ "llama3.1" → (containsChar m '.' = false ∨ containsChar m ':' = true) →
        chat.normalize_model (some m) = m)
    ∧ chat.normalize_model (some "foo.bar") = "foo:bar"
    ∧ chat.normalize_model (some "foo:bar") = "foo:bar"
    ∧ chat.normalize_model (some "plainname") = "plainname"
    ∧ (∀ o, chat.normalize_model o = chat_stream.normalize_model o) := by
  refine ⟨by decide, by decide, by decide, ?_, ?_, by decide, by decide, by decide, ?_⟩
  · intro m h1 h2 h3
    simp [chat.normalize_model, h1, h2, h3]
  · intro m h1 h2
    rcases h2 with h2 | h2 <;> simp [chat.normalize_model, h1, h2]
  · intro o
    cases o <;> rfl

theorem normalize_model_spec_witness :
    chat.normalize_model (some "a.b") = replaceChar "a.b" '.' ':'
    ∧ chat.normalize_model (some "plain") = "plain" :=
  ⟨normalize_model_spec.2.2.2.1 "a.b" (by decide) (by decide) (by decide),
   normalize_model_spec.2.2.2.2.1 "plain" (by decide) (Or.inl (by decide))⟩

/-- C8: model normalization is idempotent — for every input string `x`,
`normalize_model (some (normalize_model (some x))) = normalize_model (some x)`. -/
theorem normalize_model_idem (x : String) :
    chat.normalize_model (some (chat.normalize_model (some x))) =
      chat.normalize_model (some x) := by
  rcases eq_or_ne x "llama3.1" with h1 | h1
  · subst h1; decide
  · rw [show chat.normalize_model (some x) =
        if containsChar x '.' && !containsChar x ':' then replaceChar x '.' ':' else x from by
      simp [chat.normalize_model, h1]]
    by_cases h2 : (containsChar x '.' && !containsChar x ':') = true
    · rw [if_pos h2]
      have hc : containsChar (replaceChar x '.' ':') '.' = false := containsChar_replaceChar x
      have hne : replaceChar x '.' ':' ≠ "llama3.1" := by
        intro he
        rw [he] at hc
        exact absurd hc (by decide)
      simp [chat.normalize_model, hne, hc]
    · rw [if_neg h2]
      simp [chat.normalize_model, h1, h2]

/-! ## Handler theorems -/

/-- C3: the buffered handler is total — it answers with a `ChatResp` for
every request and upstream outcome (no error status, no propagated
exception) — and the `content` text is determined by the failure point:
send failure, body-read failure, invalid JSON, extraction miss, or
successful extraction. -/
theorem chat_transport_success :
    (∀ req net parse, ∃ c, (chat.handler req net parse).2 = ⟨c⟩)
    ∧ (∀ req net parse e, net (chat.upstreamReq req) = .sendErr e →
        (chat.handler req net parse).2.content = "Error contacting Ollama API: " ++ e)
    ∧ (∀ req net parse e, net (chat.upstreamReq req) = .readErr e →
        (chat.handler req net parse).2.content = "Failed to read response body: " ++ e)
    ∧ (∀ req net parse t, net (chat.upstreamReq req) = .ok t → parse t = none →
        (chat.handler req net parse).2.content = t)
    ∧ (∀ req net parse t j, net (chat.upstreamReq req) = .ok t → parse t = some j →
        extract_content j = none → (chat.handler req net parse).2.content = t)
    ∧ (∀ req net parse t j s, net (chat.upstreamReq req) = .ok t → parse t = some j →
        extract_content j = some s → (chat.handler req net parse).2.content = s) := by
  refine ⟨?_, ?_, ?_, ?_, ?_, ?_⟩
  · intro req net parse
    exact ⟨(chat.handler req net parse).2.content, rfl⟩
  · intro req net parse e h
    simp only [chat.handler, h]
  · intro req net parse e h
    simp only [chat.handler, h]
  · intro req net parse t h hp
    simp only [chat.handler, h, hp]
  · intro req net parse t j h hp hx
    simp only [chat.handler, h, hp, hx]
  · intro req net parse t j s h hp hx
    simp only [chat.handler, h, hp, hx]

theorem chat_transport_success_witness :
    (chat.handler ⟨[], none, none⟩ (fun _ => HttpOutcome.sendErr "down")
        (fun _ => none)).2.content = "Error contacting Ollama API: " ++ "down"
    ∧ (chat.handler ⟨[], none, none⟩ (fun _ => HttpOutcome.ok "raw body")
        (fun _ => none)).2.content = "raw body"
    ∧ (chat.handler ⟨[], none, none⟩ (fun _ => HttpOutcome.ok "{}")
        (fun _ => some (Json.obj [("message", Json.obj [("content", Json.str "hello")])]))).2.content
        = "hello" :=
  ⟨chat_transport_success.2.1 ⟨[], none, none⟩ (fun _ => HttpOutcome.sendErr "down")
     (fun _ => none) "down" rfl,
   chat_transport_success.2.2.2.1 ⟨[], none, none⟩ (fun _ => HttpOutcome.ok "raw body")
     (fun _ => none) "raw body" rfl rfl,
   chat_transport_success.2.2.2.2.2 ⟨[], none, none⟩ (fun _ => HttpOutcome.ok "{}")
     (fun _ => some (Json.obj [("message", Json.obj [("content", Json.str "hello")])]))
     "{}" (Json.obj [("message", Json.obj [("content", Json.str "hello")])]) "hello"
     rfl rfl rfl⟩

/-- C4: relay fidelity — for every sequence of successfully read byte
chunks, the outbound event list has exactly one event per chunk, in arrival
order, each payload being the chunk's decoding, with an undecodable chunk
degrading to the empty string instead of failing the stream. -/
theorem chat_stream_chunk_fidelity (decode : List Nat → Option String)
    (bss : List (List Nat)) :
    relay decode (bss.map ChunkResult.ok) = bss.map (fun bs => (decode bs).getD "")
    ∧ (relay decode (bss.map ChunkResult.ok)).length = bss.length := by
  have h : relay decode (bss.map ChunkResult.ok) =
      bss.map (fun bs => (decode bs).getD "") := by
    induction bss with
    | nil => rfl
    | cons b rest ih =>
        simp only [List.map, relay, ih]
        cases decode b <;> rfl
  exact ⟨h, by rw [h]; exact List.length_map bss _⟩

/-- C5: streaming pre-stream failure — a failed send yields exactly the
one-event stream carrying the error text, and a non-success upstream status
with a readable body yields exactly the one-event stream carrying that
body text; in both cases the stream ends after that single event. -/
theorem chat_stream_pre_send_failure :
    (∀ req net decode e, net (chat_stream.upstreamReq req) = .err e →
        (chat_stream.handler req net decode).2 = ["Error contacting Ollama API: " ++ e])
    ∧ (∀ req net decode resp t, net (chat_stream.upstreamReq req) = .ok resp →
        resp.statusSuccess = false → resp.textResult = some t →
        (chat_stream.handler req net decode).2 = [t]) := by
  constructor
  · intro req net decode e h
    simp only [chat_stream.handler, h]
  · intro req net decode resp t h hs ht
    simp only [chat_stream.handler, h, hs, ht]
    rfl

theorem chat_stream_pre_send_failure_witness :
    (chat_stream.handler ⟨[], none, none⟩ (fun _ => SendOutcome.err "refused")
        (fun _ => none)).2 = ["Error contacting Ollama API: " ++ "refused"]
    ∧ (chat_stream.handler ⟨[], none, none⟩
        (fun _ => SendOutcome.ok ⟨false, some "model not found", []⟩)
        (fun _ => none)).2 = ["model not found"] :=
  ⟨chat_stream_pre_send_failure.1 ⟨[], none, none⟩ (fun _ => SendOutcome.err "refused")
     (fun _ => none) "refused" rfl,
   chat_stream_pre_send_failure.2 ⟨[], none, none⟩
     (fun _ => SendOutcome.ok ⟨false, some "model not found", []⟩)
     (fun _ => none) ⟨false, some "model not found", []⟩ "model not found" rfl rfl rfl⟩

/-- C6: mid-stream read failure — after any run of successfully read
chunks, a read error produces exactly one final event, `"__ERR__:"`
followed by the error detail, and no event for anything after it. -/
theorem chat_stream_mid_stream_error (decode : List Nat → Option String)
    (bss : List (List Nat)) (e : String) (rest : List ChunkResult) :
    relay decode (bss.map ChunkResult.ok ++ ChunkResult.err e :: rest) =
      bss.map (fun bs => (decode bs).getD "") ++ ["__ERR__:" ++ e] := by
  induction bss with
  | nil => rfl
  | cons b bs ih =>
      simp only [List.map, List.cons_append, relay, List.append_eq, ih]
      cases decode b <;> rfl

/-- C10: when the upstream status is a non-success and reading its error
body also fails, the single outbound event's payload is the fixed
placeholder text, and the stream ends. -/
theorem chat_stream_unreadable_error_body (req : ChatReq)
    (net : UpstreamReq → SendOutcome) (decode : List Nat → Option String)
    (resp : UpstreamResp) (h1 : net (chat_stream.upstreamReq req) = .ok resp)
    (h2 : resp.statusSuccess = false) (h3 : resp.textResult = none) :
    (chat_stream.handler req net decode).2 = ["unknown error from ollama"] := by
  simp only [chat_stream.handler, h1, h2, h3]
  rfl

theorem chat_stream_unreadable_error_body_witness :
    (chat_stream.handler ⟨[], none, none⟩ (fun _ => SendOutcome.ok ⟨false, none, []⟩)
        (fun _ => none)).2 = ["unknown error from ollama"] :=
  chat_stream_unreadable_error_body ⟨[], none, none⟩
    (fun _ => SendOutcome.ok ⟨false, none, []⟩) (fun _ => none) ⟨false, none, []⟩
    rfl rfl rfl

/-- C9: the inbound `stream` field is never consulted — two requests that
differ only in `stream` produce the same upstream request (with `stream`
fixed to `false` for the buffered handler and `true` for the streaming
handler), the same buffered response, and the same event stream. -/
theorem stream_field_unused (r1 r2 : ChatReq)
    (hmsg : r1.messages = r2.messages) (hmodel : r1.model = r2.model) :
    chat.upstreamReq r1 = chat.upstreamReq r2
    ∧ (chat.upstreamReq r1).stream = false
    ∧ (∀ net parse, chat.handler r1 net parse = chat.handler r2 net parse)
    ∧ chat_stream.upstreamReq r1 = chat_stream.upstreamReq r2
    ∧ (chat_stream.upstreamReq r1).stream = true
    ∧ (∀ net decode, chat_stream.handler r1 net decode = chat_stream.handler r2 net decode) := by
  have h1 : chat.upstreamReq r1 = chat.upstreamReq r2 := by
    simp [chat.upstreamReq, hmsg, hmodel]
  have h2 : chat_stream.upstreamReq r1 = chat_stream.upstreamReq r2 := by
    simp [chat_stream.upstreamReq, hmsg, hmodel]
  refine ⟨h1, rfl, ?_, h2, rfl, ?_⟩
  · intro net parse
    simp only [chat.handler, h1]
  · intro net decode
    simp only [chat_stream.handler, h2]

theorem stream_field_unused_witness :
    chat.upstreamReq ⟨[⟨"user", "hi"⟩], none, some true⟩ =
        chat.upstreamReq ⟨[⟨"user", "hi"⟩], none, some false⟩
    ∧ chat.handler ⟨[⟨"user", "hi"⟩], none, some true⟩ (fun _ => HttpOutcome.ok "b")
        (fun _ => none) =
      chat.handler ⟨[⟨"user", "hi"⟩], none, some false⟩ (fun _ => HttpOutcome.ok "b")
        (fun _ => none)
    ∧ chat_stream.handler ⟨[⟨"user", "hi"⟩], none, some true⟩ (fun _ => SendOutcome.err "x")
        (fun _ => none) =
      chat_stream.handler ⟨[⟨"user", "hi"⟩], none, some false⟩ (fun _ => SendOutcome.err "x")
        (fun _ => none) :=
  ⟨(stream_field_unused ⟨[⟨"user", "hi"⟩], none, some true⟩
      ⟨[⟨"user", "hi"⟩], none, some false⟩ rfl rfl).1,
   (stream_field_unused ⟨[⟨"user", "hi"⟩], none, some true⟩
      ⟨[⟨"user", "hi"⟩], none, some false⟩ rfl rfl).2.2.1 _ _,
   (stream_field_unused ⟨[⟨"user", "hi"⟩], none, some true⟩
      ⟨[⟨"user", "hi"⟩], none, some false⟩ rfl rfl).2.2.2.2.2 _ _⟩
